import Mathlib

set_option maxRecDepth 100000

/-!
Verification of the chatECNU agent core (`agent.py`).

The development shallowly embeds the data model and the operations of the
agent: JSON-like values exchanged with the model (`JValue`), conversation
turns, the serializer corresponding to `json.dumps`, the history truncation
`_truncate_history`, the retrying model call `_call_model`, the action
executor `_execute_action`, and the inner Decide→Execute loop of `run`.
External collaborators (HTTP transport, filesystem, shell, the JSON parser
of the standard library) are modelled as explicit outcome environments;
the control flow is translated from the source.
-/

/-- JSON-like values, the payloads produced by `json.loads` and consumed by
the agent (Python dicts keep insertion order; duplicate keys collapse with
the last occurrence winning, which `getField` mirrors by looking up in the
reversed field list). -/
inductive JValue where
  | str (s : String) : JValue
  | num (n : Int) : JValue
  | jbool (b : Bool) : JValue
  | null : JValue
  | arr (elems : List JValue) : JValue
  | obj (fields : List (String × JValue)) : JValue
deriving Repr

/-- One conversation turn, a Python dict `{"role": r, "content": c}`. -/
structure Turn where
  role : String
  content : String
deriving Repr, DecidableEq

/-- Lower-case hexadecimal digit, as used by `json.dumps` in a
non-ASCII escape. -/
def hexDigit (n : Nat) : Char :=
  if n < 10 then Char.ofNat (48 + n) else Char.ofNat (87 + n)

/-- Four hexadecimal digits of a code unit. -/
def hex4 (n : Nat) : List Char :=
  [hexDigit (n / 4096 % 16), hexDigit (n / 256 % 16),
   hexDigit (n / 16 % 16), hexDigit (n % 16)]

/-- Escaping of one character inside a JSON string literal, following
`json.dumps` with its default `ensure_ascii=True`: printable ASCII other
than the quote and the backslash is kept, the short escapes are used for
the usual control characters, every other character becomes one `\uXXXX`
escape (a surrogate pair for characters beyond the basic plane). -/
def escapeJsonChar (c : Char) : List Char :=
  if c = '"' then ['\\', '"']
  else if c = '\\' then ['\\', '\\']
  else if c = '\n' then ['\\', 'n']
  else if c = '\r' then ['\\', 'r']
  else if c = '\t' then ['\\', 't']
  else if c.toNat = 8 then ['\\', 'b']
  else if c.toNat = 12 then ['\\', 'f']
  else if c.toNat < 32 then '\\' :: 'u' :: hex4 c.toNat
  else if c.toNat ≤ 126 then [c]
  else if c.toNat ≤ 65535 then '\\' :: 'u' :: hex4 c.toNat
  else
    ('\\' :: 'u' :: hex4 (55296 + (c.toNat - 65536) / 1024)) ++
    ('\\' :: 'u' :: hex4 (56320 + (c.toNat - 65536) % 1024))

/-- Escaping of a whole string under `json.dumps`. -/
def escapeJson (s : String) : String :=
  String.mk (s.data.flatMap escapeJsonChar)

mutual

/-- `json.dumps` of a value, with the default separators `", "` and `": "`
and `ensure_ascii=True`. -/
def jsonDumps : JValue → String
  | .str s => "\"" ++ escapeJson s ++ "\""
  | .num n => toString n
  | .jbool true => "true"
  | .jbool false => "false"
  | .null => "null"
  | .arr l => "[" ++ jsonDumpsList l ++ "]"
  | .obj f => "\x7b" ++ jsonDumpsFields f ++ "\x7d"

/-- Comma-separated serialization of array elements. -/
def jsonDumpsList : List JValue → String
  | [] => ""
  | [v] => jsonDumps v
  | v :: rest => jsonDumps v ++ ", " ++ jsonDumpsList rest

/-- Comma-separated serialization of object fields. -/
def jsonDumpsFields : List (String × JValue) → String
  | [] => ""
  | [(k, v)] => "\"" ++ escapeJson k ++ "\": " ++ jsonDumps v
  | (k, v) :: rest =>
      "\"" ++ escapeJson k ++ "\": " ++ jsonDumps v ++ ", " ++ jsonDumpsFields rest

end

/-- `json.dumps` of a history item `{"role": r, "content": c}`. -/
def jsonDumpsTurn (t : Turn) : String :=
  jsonDumps (.obj [("role", .str t.role), ("content", .str t.content)])

/-- The instance field `self.system_prompt`: the unformatted template (its
`format` placeholders still inside), which is what `_truncate_history`
measures with `len`. -/
def system_prompt : String :=
  "你是一个强大的AI助手，被设计为一个可以在Linux命令行环境中执行任务的智能代理。你的目标是理解和执行用户的指令，通过执行系统命令、读写文件等方式来完成任务。\n\n重要规则：\n1.  你必须严格遵循以下JSON格式来输出你的计划和行动，不允许有任何其他文字或解释。如果需要向用户输出信息，则使用 \"action\": \"speak\"。\n    \x7b\x7b\"action\": \"command\", \"command\": \"要执行的具体命令\", \"explanation\": \"为什么要执行此命令\"\x7d\x7d\n    \x7b\x7b\"action\": \"read_file\", \"path\": \"/path/to/file\", \"explanation\": \"为什么要读取此文件\"\x7d\x7d\n    \x7b\x7b\"action\": \"write_file\", \"path\": \"/path/to/file\", \"content\": \"文件的新内容\", \"explanation\": \"为什么要写入此文件\"\x7d\x7d\n    \x7b\x7b\"action\": \"speak\", \"message\": \"你想对用户说的话\", \"explanation\": \"为什么需要说这句话\"\x7d\x7d\n2.  你拥有sudo权限，如果需要，可以直接在命令前加 \x27sudo\x27。\n3.  在执行任何写入文件或修改系统的关键操作前，务必先读取文件内容，确认后再写入。\n4.  每次只输出一个JSON对象。执行完该动作并收到结果后，再进行下一步。\n5.  你的回答应该简洁明了，专注于任务本身。\n6.  你当前的工作目录是: \x7bworking_dir\x7d\n7.  今天是: \x7bcurrent_date\x7d"

/-- `self.max_context_length`. -/
def max_context_length : Nat := 30000

/-- The body of `_truncate_history`: walking the reversed history (most
recent first), an item is kept while the running character total plus its
serialized length stays within the budget; the first item that would
exceed it stops the walk. -/
def truncTake (total : Nat) : List Turn → List Turn
  | [] => []
  | item :: rest =>
      let item_chars := (jsonDumpsTurn item).length
      if total + item_chars > max_context_length then []
      else item :: truncTake (total + item_chars) rest

/-- `_truncate_history`: the kept items are returned in chronological
order (the Python loop builds them with `insert(0, item)` while walking
`reversed(self.session_history)`). -/
def truncate_history (history : List Turn) : List Turn :=
  (truncTake system_prompt.length history.reverse).reverse

/-- Cumulative serialized size of a history, the quantity
`_truncate_history` accumulates. -/
def histSize (h : List Turn) : Nat :=
  (h.map fun t => (jsonDumpsTurn t).length).sum

mutual

/-- Python `repr` of a JSON-shaped value (container elements are shown by
`repr`; the precise escaping inside string reprs is immaterial to every
property proved below, only the shape of the message matters). -/
def pyRepr : JValue → String
  | .str s => "\x27" ++ s ++ "\x27"
  | .num n => toString n
  | .jbool true => "True"
  | .jbool false => "False"
  | .null => "None"
  | .arr l => "[" ++ pyReprList l ++ "]"
  | .obj f => "\x7b" ++ pyReprFields f ++ "\x7d"

/-- Comma-separated reprs of list elements. -/
def pyReprList : List JValue → String
  | [] => ""
  | [v] => pyRepr v
  | v :: rest => pyRepr v ++ ", " ++ pyReprList rest

/-- Comma-separated reprs of dict items. -/
def pyReprFields : List (String × JValue) → String
  | [] => ""
  | [(k, v)] => "\x27" ++ k ++ "\x27: " ++ pyRepr v
  | (k, v) :: rest => "\x27" ++ k ++ "\x27: " ++ pyRepr v ++ ", " ++ pyReprFields rest

end

/-- Python `str` of a JSON-shaped value, as interpolated by an f-string. -/
def pyStr : JValue → String
  | .str s => s
  | v => pyRepr v

/-- Python `str` of a value that may be `None` (an absent dict entry). -/
def pyStrOpt : Option JValue → String
  | none => "None"
  | some v => pyStr v

/-- Python truthiness of a JSON-shaped value. -/
def JValue.truthy : JValue → Bool
  | .null => false
  | .jbool b => b
  | .num n => n != 0
  | .str s => !s.isEmpty
  | .arr l => !l.isEmpty
  | .obj f => !f.isEmpty

/-- Truthiness of `dict.get(key)`: an absent key gives `None`, which is
falsy. -/
def truthyOpt : Option JValue → Bool
  | none => false
  | some v => v.truthy

/-- Python `x is None` for the value of `dict.get(key)`: true when the key
is absent or its value is JSON `null`. -/
def pyIsNoneOpt : Option JValue → Bool
  | none => true
  | some .null => true
  | some _ => false

/-- `dict.get(key)` on the field list of a parsed JSON object; the last
occurrence of a duplicated key wins, as in `json.loads`. -/
def getField (fields : List (String × JValue)) (key : String) : Option JValue :=
  fields.reverse.lookup key

/-- `value.get(key)` where the receiver is known to be a dict. -/
def dictGet (v : JValue) (key : String) : Option JValue :=
  match v with
  | .obj f => getField f key
  | _ => none

/-- Python `==` between a possibly absent value and a string literal. -/
def pyEqStr (v : Option JValue) (s : String) : Bool :=
  match v with
  | some (.str t) => t == s
  | _ => false

/-- The result dictionary `{"result": ...}` returned by `_execute_action`. -/
structure ExecutionResult where
  result : String
deriving Repr, DecidableEq

/-- Outcome of `subprocess.run(command, shell=True, capture_output=True,
text=True, timeout=30)`: completion with a return code and both streams,
a `TimeoutExpired`, or any other exception. -/
inductive CommandOutcome where
  | finished (returncode : Int) (stdout stderr : String)
  | timedOut
  | raised (msg : String)

/-- Outcome of the guarded read of a resolved path: not a regular file,
UTF-8 text, latin-1 fallback text, both decodings failing, a
`PermissionError`, or any other exception. -/
inductive ReadOutcome where
  | notAFile
  | utf8 (content : String)
  | latin1 (content : String)
  | undecodable
  | permissionDenied
  | raised (msg : String)

/-- Outcome of `mkdir(parents=True, exist_ok=True)` followed by the
overwrite of the file: success, a `PermissionError`, or any other
exception (a non-string content raising `TypeError` in `f.write` is one
instance of the last case). -/
inductive WriteOutcome where
  | written
  | permissionDenied
  | raised (msg : String)

/-- The local capabilities `_execute_action` drives: shell, path
resolution, and the filesystem. `resolve` models `Path(s).resolve()`,
which can itself raise (for example `ValueError` on an embedded null
byte); that call sits before the `try` blocks in the source. -/
structure ExecEnv where
  runCommand : JValue → CommandOutcome
  resolve : String → Except String String
  readFile : String → ReadOutcome
  writeFile : String → JValue → WriteOutcome

/-- The `TypeError` message of `Path(v)` applied to a non-string, nonPathLike
value. -/
def pathTypeError (v : JValue) : String :=
  "TypeError: argument should be a str or an os.PathLike object " ++
    "where __fspath__ returns a str, not <class \x27" ++
    (match v with
     | .num _ => "int"
     | .jbool _ => "bool"
     | .null => "NoneType"
     | .arr _ => "list"
     | .obj _ => "dict"
     | .str _ => "str") ++ "\x27>"

/-- `_execute_action`. A returned `.error` is an exception propagating out
of the method to its caller (everything the source wraps in `try` is
folded into the outcome environments; the `Path(...).resolve()` calls of
the `read_file` and `write_file` branches happen before their `try`
blocks, so their failures escape). -/
def execute_action (env : ExecEnv) (action_obj : JValue) : Except String ExecutionResult :=
  match action_obj with
  | .obj fields =>
    let action_type := getField fields "action"
    if pyEqStr action_type "command" then
      let command := getField fields "command"
      if truthyOpt command = false then
        .ok ⟨"No command provided in action object."⟩
      else
        match env.runCommand (command.getD .null) with
        | .finished returncode stdout stderr =>
            let status := if returncode = 0 then "SUCCESS" else "FAILED"
            .ok ⟨"Command \x27" ++ pyStrOpt command ++ "\x27 finished with return code " ++
              toString returncode ++ ".\nStatus: " ++ status ++
              "\nSTDOUT:\n" ++ stdout ++ "\nSTDERR:\n" ++ stderr⟩
        | .timedOut =>
            .ok ⟨"Command \x27" ++ pyStrOpt command ++ "\x27 timed out after 30 seconds."⟩
        | .raised m =>
            .ok ⟨"An error occurred while executing command \x27" ++ pyStrOpt command ++
              "\x27: " ++ m⟩
    else if pyEqStr action_type "read_file" then
      let file_path_str := getField fields "path"
      if truthyOpt file_path_str = false then
        .ok ⟨"No file path provided in action object."⟩
      else
        match file_path_str.getD .null with
        | .str s =>
          match env.resolve s with
          | .error m => .error m
          | .ok file_path =>
            match env.readFile file_path with
            | .notAFile =>
                .ok ⟨"File does not exist or is not a regular file: " ++ file_path⟩
            | .utf8 content =>
                .ok ⟨"Successfully read file \x27" ++ file_path ++ "\x27. Content:\n" ++ content⟩
            | .latin1 content =>
                .ok ⟨"Successfully read file \x27" ++ file_path ++ "\x27. Content:\n" ++ content⟩
            | .undecodable =>
                .ok ⟨"Could not read file " ++ file_path ++ " with common encodings."⟩
            | .permissionDenied =>
                .ok ⟨"Permission denied when reading file: " ++ file_path⟩
            | .raised m =>
                .ok ⟨"An error occurred while reading file \x27" ++ file_path ++ "\x27: " ++ m⟩
        | v => .error (pathTypeError v)
    else if pyEqStr action_type "write_file" then
      let file_path_str := getField fields "path"
      let content := getField fields "content"
      if truthyOpt file_path_str = false ∨ pyIsNoneOpt content = true then
        .ok ⟨"No file path or content provided in action object."⟩
      else
        match file_path_str.getD .null with
        | .str s =>
          match env.resolve s with
          | .error m => .error m
          | .ok file_path =>
            match env.writeFile file_path (content.getD .null) with
            | .written =>
                .ok ⟨"Successfully wrote content to file \x27" ++ file_path ++ "\x27."⟩
            | .permissionDenied =>
                .ok ⟨"Permission denied when writing file: " ++ file_path⟩
            | .raised m =>
                .ok ⟨"An error occurred while writing file \x27" ++ file_path ++ "\x27: " ++ m⟩
        | v => .error (pathTypeError v)
    else if pyEqStr action_type "speak" then
      let message := (getField fields "message").getD (.str "")
      .ok ⟨"Agent spoke: " ++ pyStr message⟩
    else
      .ok ⟨"Unknown action type received: " ++ pyStrOpt action_type⟩
  | v => .ok ⟨"Action object is not a dictionary: " ++ pyStr v⟩

/-- Python `str.strip()` restricted to the ASCII whitespace characters
(the full Unicode whitespace set of Python is irrelevant here: the
stripped text is only ever handed to the JSON-parser oracle). -/
def pyIsSpace (c : Char) : Bool :=
  c = ' ' || c = '\t' || c = '\n' || c = '\r' || c = '\x0b' || c = '\x0c'

/-- `content.strip()`. -/
def pyStrip (s : String) : String :=
  String.mk (((s.data.dropWhile pyIsSpace).reverse.dropWhile pyIsSpace).reverse)

/-- The condition of line 68 of the source (`status == 504` or a 5xx
status), which makes a received response retriable. -/
def upstream5xx (status : Nat) : Prop :=
  status = 504 ∨ (500 ≤ status ∧ status < 600)

instance (s : Nat) : Decidable (upstream5xx s) := by
  unfold upstream5xx; infer_instance

/-- The condition of lines 104-105 of the source: a `RequestException`
carrying a response whose status is retriable. -/
def excUpstream5xx : Option Nat → Prop
  | some s => upstream5xx s
  | none => False

instance : (o : Option Nat) → Decidable (excUpstream5xx o)
  | none => isFalse fun h => h
  | some s => inferInstanceAs (Decidable (upstream5xx s))

/-- `raise_for_status` raises exactly for the 4xx and 5xx families. -/
def raisesForStatus (status : Nat) : Prop :=
  400 ≤ status ∧ status < 600

instance (s : Nat) : Decidable (raisesForStatus s) := by
  unfold raisesForStatus; infer_instance

/-- What one `requests.post` + body inspection yields once a response
object exists: the extracted `choices[0]["message"]["content"]` string, a
parsed body without a usable choice list, or an exception from `.json()`
or the indexing (both are swallowed by the generic `except Exception`
handler of the source). -/
inductive BodyOutcome where
  | content (c : String)
  | noChoices
  | exc (msg : String)

/-- Outcome of the `requests.post` call of one attempt: an HTTP response
with a status and a body, a `requests.exceptions.RequestException`
(carrying the status of its attached response when it has one), or any
other exception. -/
inductive AttemptOutcome where
  | response (status : Nat) (body : BodyOutcome)
  | requestExc (respStatus : Option Nat) (msg : String)
  | otherExc (msg : String)

/-- The collaborators of `_call_model`: the transport outcome of each
0-based attempt, the text of the `HTTPError` that `raise_for_status`
raises for the response of an attempt, and `json.loads` over the model's
text (an external library, modelled as a partial parse oracle). -/
structure CallEnv where
  attempts : Nat → AttemptOutcome
  raiseForStatus : Nat → String
  jsonLoads : String → Option JValue

/-- The `{"action": "speak", ...}` dictionaries `_call_model` builds on
its failure paths, with the field order of the source. -/
def speakObj (message explanation : String) : JValue :=
  .obj [("action", .str "speak"), ("message", .str message),
        ("explanation", .str explanation)]

/-- The retry loop of `_call_model`. The first component is the returned
action value, the second the number of `requests.post` calls performed.
`remaining` counts the iterations the `for attempt in range(max_retries)`
loop still has; the current 0-based attempt index is
`max_retries - remaining`. -/
def callModelGo (env : CallEnv) (max_retries : Nat) : Nat → JValue × Nat
  | 0 =>
      (speakObj ("Failed to get a valid response from the API after " ++
        toString max_retries ++ " attempts.") "API多次调用失败", 0)
  | remaining + 1 =>
    let attempt := max_retries - (remaining + 1)
    match env.attempts attempt with
    | .response status body =>
      if upstream5xx status then
        if remaining > 0 then
          let rest := callModelGo env max_retries remaining
          (rest.1, rest.2 + 1)
        else
          (speakObj ("API call failed: " ++ env.raiseForStatus attempt) "API调用失败", 1)
      else if raisesForStatus status then
        (speakObj ("API call failed: " ++ env.raiseForStatus attempt) "API调用失败", 1)
      else
        match body with
        | .exc m =>
            (speakObj ("An unexpected error occurred during API call: " ++ m)
              "发生未知错误", 1)
        | .noChoices => (speakObj "API返回了意外的格式。" "API响应错误", 1)
        | .content c =>
          match env.jsonLoads (pyStrip c) with
          | some action_json => (action_json, 1)
          | none =>
              (speakObj ("模型返回了非预期格式: " ++ c) "解析模型输出失败", 1)
    | .requestExc respStatus m =>
      if excUpstream5xx respStatus ∧ remaining > 0 then
        let rest := callModelGo env max_retries remaining
        (rest.1, rest.2 + 1)
      else
        (speakObj ("API call failed: " ++ m) "API调用失败", 1)
    | .otherExc m =>
        (speakObj ("An unexpected error occurred during API call: " ++ m)
          "发生未知错误", 1)

/-- `_call_model(prompt)` with its default `max_retries=3`,
`backoff_factor=1` signature; the prompt only enters the posted payload,
whose network outcome the environment already determines, and the waits
between attempts have no further observable effect. -/
def call_model (env : CallEnv) (prompt : String) (max_retries : Nat := 3) : JValue × Nat :=
  let _ := prompt
  callModelGo env max_retries max_retries

/-- The collaborators of the `run` loop: the `_call_model` environment in
force at each step (1-based), and the executor's environment. -/
structure RunEnv where
  callEnvs : Nat → CallEnv
  exec : ExecEnv

/-- Observable result of the inner per-input loop of `run`: the history
when the loop ends, the captured final response, the final `step_count`,
the history snapshots included in each request `_call_model` posted, and
the text of an exception escaping `_execute_action` (which the outer
`except` treats as fatal). -/
structure LoopResult where
  history : List Turn
  finalResponse : JValue
  steps : Nat
  requests : List (List Turn)
  crash : Option String
deriving Repr

/-- `isinstance(x, dict)`. -/
def JValue.isDict : JValue → Bool
  | .obj _ => true
  | _ => false

/-- The `while step_count < max_steps_per_input` loop of `run`. `fuel` is
`max_steps_per_input - step_count`; `s` is the current `step_count`. Each
iteration decides an action through `_call_model` (passing the user input
only on the first step), breaks on a non-dict action, executes, appends
the assistant/result turns, breaks capturing the message on `speak`, and
otherwise truncates the history before looping. -/
def runInputGo (env : RunEnv) (input : String) : Nat → List Turn → Nat → LoopResult
  | 0, h, s => ⟨h, .str "", s, [], none⟩
  | fuel + 1, h, s =>
    let step := s + 1
    let prompt := if step = 1 then input else ""
    let action_to_take := (call_model (env.callEnvs step) prompt).1
    if action_to_take.isDict then
      match execute_action env.exec action_to_take with
      | .error m => ⟨h, .str "", step, [h], some m⟩
      | .ok execution_result =>
        let h' := h ++ [⟨"assistant", jsonDumps action_to_take⟩,
                        ⟨"user", "Action result:\n" ++ execution_result.result⟩]
        if pyEqStr (dictGet action_to_take "action") "speak" then
          ⟨h', (dictGet action_to_take "message").getD (.str ""), step, [h], none⟩
        else
          let rest := runInputGo env input fuel (truncate_history h') step
          ⟨rest.history, rest.finalResponse, rest.steps, h :: rest.requests, rest.crash⟩
    else ⟨h, .str "", step, [h], none⟩

/-- One full inner loop of `run` for one (already stripped, non-empty)
user input, starting from the session history `h`: the input is appended
as a `user` turn and the loop runs with its step cap of 10. -/
def runInput (env : RunEnv) (input : String) (h : List Turn) : LoopResult :=
  runInputGo env input 10 (h ++ [⟨"user", input⟩]) 0

/-- The budget invariant `_truncate_history` establishes: the system
prompt template plus the serialized history fit the configured limit. -/
def withinBudget (h : List Turn) : Prop :=
  system_prompt.length + histSize h ≤ max_context_length

/-- A user message of 30001 characters, larger than the whole context
budget on its own. -/
def bigContent : String := String.mk (List.replicate 30001 'a')

/-- The history turn recording `bigContent` as user input. -/
def bigTurn : Turn := ⟨"user", bigContent⟩

/-- A concrete executor environment for witnesses: every command finishes
cleanly, paths resolve to themselves, reads find no regular file, writes
succeed. -/
def execEnv0 : ExecEnv where
  runCommand := fun _ => .finished 0 "" ""
  resolve := fun s => .ok s
  readFile := fun _ => .notAFile
  writeFile := fun _ _ => .written

/-- A call environment whose every attempt yields the same outcome and
whose parse oracle is constant. -/
def callEnvConst (a : AttemptOutcome) (parsed : Option JValue) : CallEnv where
  attempts := fun _ => a
  raiseForStatus := fun _ => "504 Server Error: Gateway Time-out"
  jsonLoads := fun _ => parsed

/-- A run environment in which `_call_model` always produces `v` (every
attempt succeeds with a body that parses to `v`). -/
def runEnvConst (v : JValue) : RunEnv where
  callEnvs := fun _ => callEnvConst (.response 200 (.content "x")) (some v)
  exec := execEnv0

/-- A run environment in which `_call_model` produces `v1` at step 1 and
`v2` at every later step. -/
def runEnvSeq (v1 v2 : JValue) : RunEnv where
  callEnvs := fun k =>
    callEnvConst (.response 200 (.content "x")) (some (if k = 1 then v1 else v2))
  exec := execEnv0

/-- A concrete `command` action, as a model could decide it. -/
def cmdAction : JValue :=
  .obj [("action", .str "command"), ("command", .str "ls"),
        ("explanation", .str "list")]

/-- A run environment deciding a command at step 1 and a non-dict value
afterwards, producing a two-request inner loop. -/
def runEnvC4 : RunEnv := runEnvSeq cmdAction (.str "x")

/-! ## Lemmas about `_truncate_history` -/

/-- The kept items are an initial segment of the walked (reversed) list. -/
theorem truncTake_append (total : Nat) (l : List Turn) :
    ∃ t, truncTake total l ++ t = l := by
  induction l generalizing total with
  | nil => exact ⟨[], rfl⟩
  | cons item rest ih =>
    by_cases hc : total + (jsonDumpsTurn item).length > max_context_length
    · exact ⟨item :: rest, by simp [truncTake, hc]⟩
    · obtain ⟨t, ht⟩ := ih (total + (jsonDumpsTurn item).length)
      exact ⟨t, by simp [truncTake, hc, ht]⟩

/-- Size of a cons in `histSize`. -/
theorem histSize_cons (t : Turn) (l : List Turn) :
    histSize (t :: l) = (jsonDumpsTurn t).length + histSize l := by
  simp [histSize]

/-- Reversal does not change the cumulative size. -/
theorem histSize_reverse (l : List Turn) : histSize l.reverse = histSize l := by
  simp [histSize, List.sum_reverse]

/-- Size of a one-turn history. -/
theorem histSize_singleton (t : Turn) : histSize [t] = (jsonDumpsTurn t).length := by
  simp [histSize]

/-- The accumulation invariant of the walk: starting from a total within
the budget, the kept items never push the total past the budget. -/
theorem truncTake_budget (l : List Turn) (total : Nat)
    (h : total ≤ max_context_length) :
    total + histSize (truncTake total l) ≤ max_context_length := by
  induction l generalizing total with
  | nil => simpa [truncTake, histSize]
  | cons item rest ih =>
    by_cases hc : total + (jsonDumpsTurn item).length > max_context_length
    · simpa [truncTake, hc, histSize]
    · have hrec := ih (total + (jsonDumpsTurn item).length) (by omega)
      simp only [truncTake, if_neg hc]
      rw [histSize_cons]
      omega

/-- The system prompt template fits the budget by itself. -/
theorem system_prompt_le : system_prompt.length ≤ max_context_length := by decide

/-- `_truncate_history` returns a contiguous suffix of the history. -/
theorem truncate_history_suffix (h : List Turn) : truncate_history h <:+ h := by
  obtain ⟨t, ht⟩ := truncTake_append system_prompt.length h.reverse
  refine ⟨t.reverse, ?_⟩
  have h2 := congrArg List.reverse ht
  simpa [truncate_history] using h2

/-- After `_truncate_history`, system prompt plus kept turns fit the
budget. -/
theorem truncate_history_budget (h : List Turn) :
    system_prompt.length + histSize (truncate_history h) ≤ max_context_length := by
  have := truncTake_budget h.reverse system_prompt.length system_prompt_le
  have hr : histSize (truncate_history h) =
      histSize (truncTake system_prompt.length h.reverse) := by
    simp [truncate_history, histSize_reverse]
  omega

/-- Re-walking an already kept list keeps everything: the same condition
is re-evaluated with the same running totals. -/
theorem truncTake_idem (l : List Turn) (total : Nat) :
    truncTake total (truncTake total l) = truncTake total l := by
  induction l generalizing total with
  | nil => simp [truncTake]
  | cons item rest ih =>
    by_cases hc : total + (jsonDumpsTurn item).length > max_context_length
    · simp [truncTake, hc]
    · simp [truncTake, hc, ih]

/-- Escaping a run of `n` letters `a` yields `n` characters. -/
theorem flatMap_escape_replicate (n : Nat) :
    ((List.replicate n 'a').flatMap escapeJsonChar).length = n := by
  induction n with
  | zero => rfl
  | succ k ih =>
    rw [List.replicate_succ, List.flatMap_cons, List.length_append, ih]
    have h1 : (escapeJsonChar 'a').length = 1 := rfl
    omega

/-- Length of the escaped oversized content. -/
theorem escapeJson_bigContent_length : (escapeJson bigContent).length = 30001 :=
  flatMap_escape_replicate 30001

/-- The serialized oversized turn exceeds the whole budget by itself. -/
theorem bigTurn_size_gt : 30000 < (jsonDumpsTurn bigTurn).length := by
  have h1 := escapeJson_bigContent_length
  simp only [jsonDumpsTurn, bigTurn, jsonDumps, jsonDumpsFields, String.length_append]
  omega

/-! ## Claims C2, C3, C10 -/

/-- Claim C2 counterexample: a non-empty history whose single (hence most
recent) turn serializes to more than the whole budget is truncated to the
empty history, so `_truncate_history` does not always keep the most
recent turn of a non-empty history. -/
theorem truncate_drops_oversized_last_turn :
    truncate_history [bigTurn] = [] ∧ ([bigTurn] : List Turn) ≠ [] := by
  constructor
  · have hgt := bigTurn_size_gt
    have hc : system_prompt.length + (jsonDumpsTurn bigTurn).length >
        max_context_length := by
      simp only [max_context_length]
      omega
    simp [truncate_history, truncTake, hc]
  · simp

/-- Claim C2 (amended): truncation keeps at least the most recent turn
whenever the system prompt plus that turn's serialized length fit within
the budget of 30000 characters; in particular the result is then
non-empty. -/
theorem truncate_keeps_fitting_last_turn (h : List Turn) (t : Turn)
    (hfit : system_prompt.length + (jsonDumpsTurn t).length ≤ 30000) :
    truncate_history (h ++ [t]) ≠ [] := by
  have hc : ¬ (system_prompt.length + (jsonDumpsTurn t).length >
      max_context_length) := by
    simp only [max_context_length]
    omega
  simp [truncate_history, truncTake, hc]

/-- Witness for the amended C2 at a concrete small history. -/
theorem truncate_keeps_fitting_last_turn_witness :
    system_prompt.length + (jsonDumpsTurn ⟨"user", "hi"⟩).length ≤ 30000 ∧
      truncate_history ([] ++ [(⟨"user", "hi"⟩ : Turn)]) ≠ [] :=
  ⟨by decide, truncate_keeps_fitting_last_turn [] ⟨"user", "hi"⟩ (by decide)⟩

/-- Claim C3: `_truncate_history` produces a contiguous suffix of the
original history (chronological order unchanged, only oldest turns
dropped), and the kept turns' serialized lengths plus the system prompt
length stay within the 30000-character budget. -/
theorem truncate_history_suffix_and_budget (h : List Turn) :
    truncate_history h <:+ h ∧
      system_prompt.length + histSize (truncate_history h) ≤ 30000 :=
  ⟨truncate_history_suffix h, truncate_history_budget h⟩

/-- Claim C10: `_truncate_history` is idempotent — the suffix it keeps
already satisfies the accumulation bound, so a second pass keeps it in
full. -/
theorem truncate_history_idempotent (h : List Turn) :
    truncate_history (truncate_history h) = truncate_history h := by
  simp [truncate_history, List.reverse_reverse, truncTake_idem]

/-! ## Claims C5, C6 about `_call_model` -/

/-- Claim C5: at any iteration of the retry loop, a successful completion
(no retriable status, `raise_for_status` silent) whose extracted textual
payload does not parse as JSON makes `_call_model` return the speak
action that surfaces the raw model text in its message and carries the
parse-failure explanation — never the malformed value itself, and without
raising. -/
theorem call_model_malformed_returns_speak (env : CallEnv)
    (max_retries remaining status : Nat) (c : String)
    (hresp : env.attempts (max_retries - (remaining + 1)) =
      .response status (.content c))
    (h5 : ¬ upstream5xx status) (h4 : ¬ raisesForStatus status)
    (hparse : env.jsonLoads (pyStrip c) = none) :
    (callModelGo env max_retries (remaining + 1)).1 =
      speakObj ("模型返回了非预期格式: " ++ c) "解析模型输出失败" := by
  simp [callModelGo, hresp, h5, h4, hparse]

/-- Witness for C5: a 200 response whose body text is not JSON. -/
theorem call_model_malformed_returns_speak_witness :
    (callEnvConst (.response 200 (.content "not json")) none).attempts (3 - (2 + 1)) =
        .response 200 (.content "not json") ∧
      (callModelGo (callEnvConst (.response 200 (.content "not json")) none) 3
          (2 + 1)).1 =
        speakObj ("模型返回了非预期格式: " ++ "not json") "解析模型输出失败" :=
  ⟨rfl, call_model_malformed_returns_speak _ 3 2 200 "not json" rfl (by decide)
    (by decide) rfl⟩

/-- Retry-loop induction for C6: with every remaining attempt answered by
a 5xx response, the loop consumes all remaining attempts and degrades to
the transport-failure speak action. -/
theorem callModelGo_all_5xx (env : CallEnv) (n : Nat)
    (hall : ∀ i, i < n → ∃ s b, env.attempts i = .response s b ∧ 500 ≤ s ∧ s < 600) :
    ∀ r, 0 < r → r ≤ n →
      ∃ m, callModelGo env n r =
        (speakObj ("API call failed: " ++ m) "API调用失败", r) := by
  intro r
  induction r with
  | zero => intro hpos _; exact absurd hpos (by omega)
  | succ r' ih =>
    intro _ hle
    obtain ⟨s, b, hatt, hs1, hs2⟩ := hall (n - (r' + 1)) (by omega)
    have h5 : upstream5xx s := Or.inr ⟨hs1, hs2⟩
    by_cases hr : r' > 0
    · obtain ⟨m, hm⟩ := ih (by omega) (by omega)
      exact ⟨m, by simp [callModelGo, hatt, h5, hr, hm]⟩
    · have hr0 : r' = 0 := by omega
      subst hr0
      exact ⟨env.raiseForStatus (n - 1), by simp [callModelGo, hatt, h5]⟩

/-- Claim C6: when every attempt of a `_call_model` invocation receives an
HTTP 5xx response, the call returns (never raises) the speak action
embedding the failure description, and the number of HTTP calls attempted
equals the configured maximum. -/
theorem call_model_all_5xx_speak_and_count (env : CallEnv) (prompt : String)
    (n : Nat) (hn : 0 < n)
    (hall : ∀ i, i < n → ∃ s b, env.attempts i = .response s b ∧ 500 ≤ s ∧ s < 600) :
    ∃ m, call_model env prompt n =
      (speakObj ("API call failed: " ++ m) "API调用失败", n) := by
  have h := callModelGo_all_5xx env n hall n hn le_rfl
  simpa [call_model] using h

/-- Witness for C6: three 504 responses, three attempts, degraded speak. -/
theorem call_model_all_5xx_witness :
    ∃ m, call_model (callEnvConst (.response 504 .noChoices) none) "hello" 3 =
      (speakObj ("API call failed: " ++ m) "API调用失败", 3) :=
  call_model_all_5xx_speak_and_count _ "hello" 3 (by decide)
    (fun _ _ => ⟨504, .noChoices, rfl, by decide, by decide⟩)

/-! ## Claims C1, C9 about `_execute_action` -/

/-- Strings whose first characters differ are distinct. -/
theorem str_ne_of_heads {a b : String} {c d : Char}
    (ha : a.data.head? = some c) (hb : b.data.head? = some d) (hcd : c ≠ d) :
    a ≠ b := by
  intro e
  rw [e, hb] at ha
  exact hcd (Option.some.inj ha).symm

/-- The head character survives appending on the right. -/
theorem head_data_append (p q : String) (c : Char) (hp : p.data.head? = some c) :
    (p ++ q).data.head? = some c := by
  have hd : (p ++ q).data = p.data ++ q.data := rfl
  rw [hd]
  cases hpd : p.data with
  | nil => rw [hpd] at hp; cases hp
  | cons x xs => rw [hpd] at hp; simpa using hp

/-- Claim C1 (code bug): on the payload
`{"action": "read_file", "path": 5}` — a truthy, non-string `path` —
`_execute_action` reaches `Path(file_path_str)` on line 179, before the
branch's `try` block, and propagates the resulting `TypeError` to its
caller instead of returning a result dictionary. -/
theorem execute_action_raises_on_nonstring_path :
    execute_action execEnv0 (.obj [("action", .str "read_file"), ("path", .num 5)]) =
      .error (pathTypeError (.num 5)) := rfl

/-- Claim C9 counterexample: on the payload `{"action": "write_file",
"path": false, "content": "x"}` the fail-fast missing-field result is
returned although the `path` field is present and is neither absent nor
the empty string and the `content` field is present, so the claimed
equivalence fails. -/
theorem write_file_missing_iff_counterexample :
    ¬ (execute_action execEnv0
          (.obj [("action", .str "write_file"), ("path", .jbool false),
                 ("content", .str "x")]) =
        .ok ⟨"No file path or content provided in action object."⟩ ↔
       (getField [("action", JValue.str "write_file"), ("path", JValue.jbool false),
                  ("content", JValue.str "x")] "path" = none ∨
        getField [("action", JValue.str "write_file"), ("path", JValue.jbool false),
                  ("content", JValue.str "x")] "path" = some (.str "") ∨
        getField [("action", JValue.str "write_file"), ("path", JValue.jbool false),
                  ("content", JValue.str "x")] "content" = none)) := by
  intro hiff
  have hp : getField [("action", JValue.str "write_file"), ("path", JValue.jbool false),
      ("content", JValue.str "x")] "path" = some (.jbool false) := rfl
  have hc : getField [("action", JValue.str "write_file"), ("path", JValue.jbool false),
      ("content", JValue.str "x")] "content" = some (.str "x") := rfl
  have h := hiff.mp rfl
  rcases h with h | h | h
  · rw [hp] at h; exact Option.noConfusion h
  · rw [hp] at h; exact JValue.noConfusion (Option.some.inj h)
  · rw [hc] at h; exact Option.noConfusion h

/-- Claim C9 (amended): a `write_file` action returns the fail-fast
missing-field result exactly when the `path` field is falsy (absent,
`null`, `false`, `0`, the empty string, or an empty container) or the
`content` field is absent or `null`; in particular a `content` equal to
the empty string is accepted and the write branch proceeds. -/
theorem write_file_missing_iff (env : ExecEnv) (fields : List (String × JValue))
    (hact : getField fields "action" = some (.str "write_file")) :
    (execute_action env (.obj fields) =
        .ok ⟨"No file path or content provided in action object."⟩) ↔
      (truthyOpt (getField fields "path") = false ∨
        pyIsNoneOpt (getField fields "content") = true) := by
  have e1 : pyEqStr (some (JValue.str "write_file")) "command" = false := rfl
  have e2 : pyEqStr (some (JValue.str "write_file")) "read_file" = false := rfl
  have e3 : pyEqStr (some (JValue.str "write_file")) "write_file" = true := rfl
  simp only [execute_action, hact, e1, e2, e3, Bool.false_eq_true, if_false, if_true]
  by_cases hg : truthyOpt (getField fields "path") = false ∨
      pyIsNoneOpt (getField fields "content") = true
  · rw [if_pos hg]
    exact iff_of_true rfl hg
  · rw [if_neg hg]
    constructor
    · intro hres
      exfalso
      split at hres
      · split at hres
        · exact Except.noConfusion hres
        · split at hres
          · simp only [Except.ok.injEq, ExecutionResult.mk.injEq] at hres
            exact absurd hres (str_ne_of_heads
              (head_data_append _ _ _ (head_data_append _ _ _ rfl)) rfl
              (by decide))
          · simp only [Except.ok.injEq, ExecutionResult.mk.injEq] at hres
            exact absurd hres (str_ne_of_heads (head_data_append _ _ _ rfl) rfl
              (by decide))
          · simp only [Except.ok.injEq, ExecutionResult.mk.injEq] at hres
            exact absurd hres (str_ne_of_heads
              (head_data_append _ _ _
                (head_data_append _ _ _ (head_data_append _ _ _ rfl))) rfl
              (by decide))
      · exact Except.noConfusion hres
    · intro hcond
      exact absurd hcond hg

/-- Witness for the amended C9 in both directions of interest: an absent
`content` triggers the missing-field result, and an empty-string
`content` with a good path does not (the write branch proceeds). -/
theorem write_file_missing_iff_witness :
    (execute_action execEnv0 (.obj [("action", .str "write_file"),
        ("path", .str "/tmp/f")]) =
      .ok ⟨"No file path or content provided in action object."⟩) ∧
    ¬ (execute_action execEnv0 (.obj [("action", .str "write_file"),
        ("path", .str "/tmp/f"), ("content", .str "")]) =
      .ok ⟨"No file path or content provided in action object."⟩) :=
  ⟨(write_file_missing_iff execEnv0 [("action", .str "write_file"),
      ("path", .str "/tmp/f")] rfl).mpr (Or.inr rfl),
   fun hres => by
    have h := (write_file_missing_iff execEnv0 [("action", .str "write_file"),
        ("path", .str "/tmp/f"), ("content", .str "")] rfl).mp hres
    rcases h with h | h
    · exact Bool.noConfusion ((rfl : truthyOpt (getField [("action", JValue.str "write_file"),
        ("path", JValue.str "/tmp/f"), ("content", JValue.str "")] "path") = true) ▸ h)
    · exact Bool.noConfusion ((rfl : pyIsNoneOpt (getField [("action", JValue.str "write_file"),
        ("path", JValue.str "/tmp/f"), ("content", JValue.str "")] "content") = false) ▸ h)⟩

/-! ## Claims C7, C8, C4 about the inner loop of `run` -/

/-- The `speak` branch of `_execute_action` always succeeds and echoes the
message (default empty). -/
theorem execute_action_speak (env : ExecEnv) (fields : List (String × JValue))
    (hact : getField fields "action" = some (.str "speak")) :
    execute_action env (.obj fields) =
      .ok ⟨"Agent spoke: " ++ pyStr ((getField fields "message").getD (.str ""))⟩ := by
  have e1 : pyEqStr (some (JValue.str "speak")) "command" = false := rfl
  have e2 : pyEqStr (some (JValue.str "speak")) "read_file" = false := rfl
  have e3 : pyEqStr (some (JValue.str "speak")) "write_file" = false := rfl
  have e4 : pyEqStr (some (JValue.str "speak")) "speak" = true := rfl
  simp [execute_action, hact, e1, e2, e3, e4]

/-- One speak step of the inner loop, fully evaluated: the assistant and
result turns are appended, the message is captured, the loop ends with
this single request and no truncation. -/
theorem runInputGo_speak_step (env : RunEnv) (input : String) (fuel : Nat)
    (h : List Turn) (s : Nat) (fields : List (String × JValue))
    (ha : (call_model (env.callEnvs (s + 1)) (if s + 1 = 1 then input else "")).1 =
      .obj fields)
    (hact : getField fields "action" = some (.str "speak")) :
    runInputGo env input (fuel + 1) h s =
      ⟨h ++ [⟨"assistant", jsonDumps (.obj fields)⟩,
             ⟨"user", "Action result:\n" ++ ("Agent spoke: " ++
               pyStr ((getField fields "message").getD (.str "")))⟩],
       (getField fields "message").getD (.str ""), s + 1, [h], none⟩ := by
  have hexec := execute_action_speak env.exec fields hact
  have hspk : pyEqStr (getField fields "action") "speak" = true := by
    rw [hact]
    rfl
  have ha2 : (call_model (env.callEnvs (s + 1)) (if s = 0 then input else "")).1 =
      .obj fields := by
    have hif : (if s + 1 = 1 then input else "") = (if s = 0 then input else "") := by
      cases s <;> simp
    rw [← hif]
    exact ha
  simp [runInputGo, ha, ha2, hexec, hspk, dictGet, JValue.isDict]

/-- Claim C7 counterexample: after a single speak cycle starting from the
history `[user "hi"]`, the history is not the history before the cycle —
the cycle was recorded. -/
theorem speak_cycle_still_records :
    (runInput (runEnvConst (speakObj "yo" "e")) "hi" []).history ≠
      [⟨"user", "hi"⟩] := by
  decide

/-- Claim C7 (amended): when the decided Action's kind is speak, the cycle
is still recorded — the history after the cycle equals the history before
it extended by the serialized assistant turn and the framed result turn;
only the truncation step is skipped, because the loop breaks first. -/
theorem speak_cycle_appends_two_turns (env : RunEnv) (input : String) (fuel : Nat)
    (h : List Turn) (s : Nat) (fields : List (String × JValue))
    (ha : (call_model (env.callEnvs (s + 1)) (if s + 1 = 1 then input else "")).1 =
      .obj fields)
    (hact : getField fields "action" = some (.str "speak")) :
    (runInputGo env input (fuel + 1) h s).history =
      h ++ [⟨"assistant", jsonDumps (.obj fields)⟩,
            ⟨"user", "Action result:\n" ++ ("Agent spoke: " ++
              pyStr ((getField fields "message").getD (.str "")))⟩] := by
  rw [runInputGo_speak_step env input fuel h s fields ha hact]

/-- Witness for the amended C7 at a concrete speak step. -/
theorem speak_cycle_appends_two_turns_witness :
    (runInputGo (runEnvConst (speakObj "yo" "e")) "hi" 10 [⟨"user", "hi"⟩] 0).history =
      [⟨"user", "hi"⟩] ++
        [⟨"assistant", jsonDumps (.obj [("action", .str "speak"),
            ("message", .str "yo"), ("explanation", .str "e")])⟩,
         ⟨"user", "Action result:\n" ++ ("Agent spoke: " ++
           pyStr ((getField [("action", JValue.str "speak"),
             ("message", JValue.str "yo"), ("explanation", JValue.str "e")]
               "message").getD (.str "")))⟩] :=
  speak_cycle_appends_two_turns _ "hi" 9 _ 0 _ rfl rfl

/-- Claim C8: whenever the decided Action at any step of the inner loop is
a speak dict, the loop terminates at exactly that step — the final step
count is this step's, only this one request was posted (no further decide
or execute call happens for this input), and the captured final response
equals the Action's message field, the empty string when absent. -/
theorem speak_terminates_inner_loop (env : RunEnv) (input : String) (fuel : Nat)
    (h : List Turn) (s : Nat) (fields : List (String × JValue))
    (ha : (call_model (env.callEnvs (s + 1)) (if s + 1 = 1 then input else "")).1 =
      .obj fields)
    (hact : getField fields "action" = some (.str "speak")) :
    (runInputGo env input (fuel + 1) h s).steps = s + 1 ∧
    (runInputGo env input (fuel + 1) h s).finalResponse =
      (getField fields "message").getD (.str "") ∧
    (runInputGo env input (fuel + 1) h s).requests = [h] := by
  rw [runInputGo_speak_step env input fuel h s fields ha hact]
  exact ⟨rfl, rfl, rfl⟩

/-- Witness for C8 at step 3 of a loop, with an absent message field. -/
theorem speak_terminates_inner_loop_witness :
    (runInputGo (runEnvConst (.obj [("action", .str "speak"),
        ("explanation", .str "done")])) "go" 6 [⟨"user", "go"⟩] 2).steps = 3 ∧
    (runInputGo (runEnvConst (.obj [("action", .str "speak"),
        ("explanation", .str "done")])) "go" 6 [⟨"user", "go"⟩] 2).finalResponse =
      (getField [("action", JValue.str "speak"),
        ("explanation", JValue.str "done")] "message").getD (.str "") ∧
    (runInputGo (runEnvConst (.obj [("action", .str "speak"),
        ("explanation", .str "done")])) "go" 6 [⟨"user", "go"⟩] 2).requests =
      [[⟨"user", "go"⟩]] :=
  speak_terminates_inner_loop _ "go" 5 _ 2 _ rfl rfl

/-- Every request snapshot of a loop started from a within-budget history
is within budget: the entry history is, and every later snapshot is the
output of a truncation. -/
theorem runInputGo_requests_budget (env : RunEnv) (input : String) :
    ∀ fuel h s, withinBudget h →
      ∀ r ∈ (runInputGo env input fuel h s).requests, withinBudget r := by
  intro fuel
  induction fuel with
  | zero =>
    intro h s _ r hr
    simp [runInputGo] at hr
  | succ f ih =>
    intro h s hh r hr
    simp only [runInputGo] at hr
    generalize (call_model (env.callEnvs (s + 1))
      (if s + 1 = 1 then input else "")).1 = a at hr
    split at hr
    · split at hr
      · simp at hr
        exact hr ▸ hh
      · split at hr
        · simp at hr
          exact hr ▸ hh
        · simp at hr
          rcases hr with rfl | hr
          · exact hh
          · exact ih _ _ (truncate_history_budget _) r hr
    · simp at hr
      exact hr ▸ hh

/-- Dropping the first request, every remaining snapshot of a loop run is
within budget, with no assumption on the entry history. -/
theorem runInputGo_requests_tail_budget (env : RunEnv) (input : String)
    (fuel : Nat) (h : List Turn) (s : Nat) :
    ∀ r ∈ ((runInputGo env input fuel h s).requests).tail, withinBudget r := by
  intro r hr
  cases fuel with
  | zero => simp [runInputGo] at hr
  | succ f =>
    simp only [runInputGo] at hr
    generalize (call_model (env.callEnvs (s + 1))
      (if s + 1 = 1 then input else "")).1 = a at hr
    split at hr
    · split at hr
      · simp at hr
      · split at hr
        · simp at hr
        · simp at hr
          exact runInputGo_requests_budget env input f _ (s + 1)
            (truncate_history_budget _) r hr
    · simp at hr

/-- Claim C4 (amended): every request `_call_model` sends at the second or
a later step of an input's inner loop carries a history truncated in the
preceding step, so that history plus the system prompt template (the
quantity `_truncate_history` bounds) fits the 30000-character budget. The
first request of an input's loop — sent right after the user turn is
appended, with no truncation in between — is exempt; see the
counterexample. -/
theorem requests_after_first_within_budget (env : RunEnv) (input : String)
    (h0 : List Turn) (r : List Turn)
    (hr : r ∈ ((runInput env input h0).requests).tail) :
    system_prompt.length + histSize r ≤ 30000 := by
  unfold runInput at hr
  exact runInputGo_requests_tail_budget env input 10 (h0 ++ [⟨"user", input⟩]) 0 r hr

/-- Witness for the amended C4: the second (last) request of a concrete
two-step loop is within budget. -/
theorem requests_after_first_within_budget_witness :
    system_prompt.length +
      histSize (((runInput runEnvC4 "hi" []).requests).tail.getLastD []) ≤ 30000 :=
  requests_after_first_within_budget runEnvC4 "hi" []
    (((runInput runEnvC4 "hi" []).requests).tail.getLastD []) (by decide)

/-- Claim C4 counterexample: the request sent at the first step after a
30001-character user input is appended exceeds the character budget
together with the system prompt — no truncation runs between the append
and the send. -/
theorem first_request_exceeds_budget :
    (runInput (runEnvConst (.str "x")) bigContent []).requests = [[bigTurn]] ∧
      30000 < system_prompt.length + histSize [bigTurn] := by
  constructor
  · rfl
  · have h1 : histSize [bigTurn] = (jsonDumpsTurn bigTurn).length :=
      histSize_singleton bigTurn
    rw [h1]
    have hgt := bigTurn_size_gt
    omega
